import Mathlib

/-!
Shallow embedding of `src/extract_density.py`: a line-oriented scanner that
locates the "atomic populations from spin  density:" section of a dscf log,
tokenizes each line inside the section, matches rows against a caller-supplied
target-atom mapping, and assembles one fixed-shape record per target atom.

Modelling conventions:
* A Python line stream is a `List String` (one entry per line).
* The Python `dict` `target_atoms` is an association list `List (Int × String)`
  in insertion order; `lookupTarget` models `target_atoms[k]` / `k in target_atoms`.
* Python `float` values only flow through the program unchanged (parsed from a
  token, stored, surfaced); they are modelled by `DensityVal`, an exact decimal
  `mantissa × 10 ^ exp10`, built by a parser for the sign/digits/point/exponent
  shape of decimal literals.  No arithmetic is ever performed on them.
* `int(...)` / `float(...)` raising `ValueError` is modelled by `Option`.
* `open` raising `FileNotFoundError` is modelled by the `Option` argument of
  `extract_density_from_dscf_log`, and the outcome (error return versus output
  written) by `ExtractOutcome`.
-/

/-- Python `a == b` on characters of the two strings: `pat` occurs at the head
of `l` (models the anchored comparison used by substring search). -/
def leadsWith : List Char → List Char → Bool
  | [], _ => true
  | _ :: _, [] => false
  | a :: as, b :: bs => a == b && leadsWith as bs

/-- Whether `pat` occurs contiguously somewhere in `l` (Python `pat in line` on strings). -/
def hasSubstr (pat : List Char) : List Char → Bool
  | [] => pat.isEmpty
  | c :: cs => leadsWith pat (c :: cs) || hasSubstr pat cs

/-- Python substring containment `pat in line`. -/
def strContains (line pat : String) : Bool := hasSubstr pat.data line.data

/-- The section start marker of line 30 of the source (two spaces before
`density:` are literal). -/
def start_marker : String := "atomic populations from spin  density:"

/-- The separator substring of line 34 of the source. -/
def end_marker : String := "====="

/-- Accumulator-based splitter for `line.strip().split()`: whitespace runs
delimit tokens, leading/trailing whitespace yields no empty tokens. -/
def wordsAux : List Char → List Char → List String
  | [], cur => if cur.isEmpty then [] else [String.mk cur.reverse]
  | c :: cs, cur =>
    if c.isWhitespace then
      if cur.isEmpty then wordsAux cs [] else String.mk cur.reverse :: wordsAux cs []
    else wordsAux cs (c :: cur)

/-- Python `line.strip().split()`. -/
def splitWs (s : String) : List String := wordsAux s.data []

/-- Python `str.lower()` (ASCII letters, which is all element symbols use). -/
def lowerStr (s : String) : String := String.mk (s.data.map Char.toLower)

/-- Numeric value of a digit run (caller checks all characters are digits). -/
def digitsVal (cs : List Char) : Nat := cs.foldl (fun a c => a * 10 + (c.toNat - 48)) 0

/-- A non-empty all-digit run, as a natural number. -/
def natDigits (cs : List Char) : Option Nat :=
  if cs ≠ [] ∧ cs.all Char.isDigit then some (digitsVal cs) else none

/-- Python `int(token)` on a whitespace-free token: optional sign then digits. -/
def parseIntChars : List Char → Option Int
  | '+' :: cs => (natDigits cs).map (fun n => (n : Int))
  | '-' :: cs => (natDigits cs).map (fun n => -(n : Int))
  | cs => (natDigits cs).map (fun n => (n : Int))

/-- Python `int(token)`; `none` models `ValueError`. -/
def parseInt (s : String) : Option Int := parseIntChars s.data

/-- An exact decimal value `mantissa × 10 ^ exp10`, the carrier for parsed
density tokens.  The program never computes with densities, only stores and
surfaces them, so the unnormalized pair is a faithful pass-through carrier. -/
structure DensityVal where
  mantissa : Int
  exp10 : Int
deriving DecidableEq, Repr

/-- Split at the first character satisfying `p`: `(before, rest after it)`,
`none` when `p` never holds. -/
def breakAt (p : Char → Bool) : List Char → List Char × Option (List Char)
  | [] => ([], none)
  | c :: cs =>
    if p c then ([], some cs)
    else
      let r := breakAt p cs
      (c :: r.1, r.2)

/-- Mantissa `digits[.digits]` of a float literal: combined digit value and the
number of fractional digits.  At least one digit must be present. -/
def parseMantissa (cs : List Char) : Option (Nat × Nat) :=
  match breakAt (fun c => c == '.') cs with
  | (ip, none) => (natDigits ip).map (fun n => (n, 0))
  | (ip, some fp) =>
    if (ip ≠ [] ∨ fp ≠ []) ∧ ip.all Char.isDigit ∧ fp.all Char.isDigit then
      some (digitsVal ip * 10 ^ fp.length + digitsVal fp, fp.length)
    else none

/-- Signless part of a float literal: mantissa with optional `e`/`E` exponent. -/
def parseFloatCore (sign : Int) (cs : List Char) : Option DensityVal :=
  match breakAt (fun c => c == 'e' || c == 'E') cs with
  | (mant, none) => (parseMantissa mant).map (fun p => ⟨sign * p.1, -(p.2 : Int)⟩)
  | (mant, some ex) =>
    match parseMantissa mant, parseIntChars ex with
    | some p, some e => some ⟨sign * p.1, e - (p.2 : Int)⟩
    | _, _ => none

/-- Python `float(token)` on the decimal-literal shape `[±]digits[.digits][(e|E)[±]digits]`
(`inf`/`nan` and digit underscores are out of scope: no density token in a dscf
log uses them); `none` models `ValueError`. -/
def parseFloat (s : String) : Option DensityVal :=
  match s.data with
  | '+' :: cs => parseFloatCore 1 cs
  | '-' :: cs => parseFloatCore (-1) cs
  | cs => parseFloatCore 1 cs

/-- Python `[float(d) for d in parts[2:]]` of line 43: all tokens must parse, a single
failure discards the whole list (`ValueError` caught at line 48). -/
def parseFloats : List String → Option (List DensityVal)
  | [] => some []
  | t :: ts =>
    match parseFloat t, parseFloats ts with
    | some v, some vs => some (v :: vs)
    | _, _ => none

/-- Python `target_atoms[k]` on the insertion-ordered dict, as an association
list lookup (`none` models `k not in target_atoms`). -/
def lookupTarget : List (Int × String) → Int → Option String
  | [], _ => none
  | p :: rest, k => if p.1 = k then some p.2 else lookupTarget rest k

/-- Lines 38-46 of the source on one candidate line: split into `parts`; require
at least 3 tokens; `atom_number = int(parts[0])`, `element = parts[1].lower()`,
`densities = [float(d) for d in parts[2:]]`; accept when `atom_number in
target_atoms and target_atoms[atom_number] == element`.  `none` covers both the
silently skipped `ValueError` lines and non-matching rows. -/
def rowMatch (target_atoms : List (Int × String)) (line : String) :
    Option (Int × List DensityVal) :=
  match splitWs line with
  | p0 :: p1 :: p2 :: rest =>
    match parseInt p0, parseFloats (p2 :: rest) with
    | some atom_number, some densities =>
      if lookupTarget target_atoms atom_number = some (lowerStr p1) then
        some (atom_number, densities)
      else none
    | _, _ => none
  | _ => none

/-- Line 23: `{atom_num: {'Element': element, 'Densities': []} ...}` as an
insertion-ordered list of (atom number, element, densities) entries. -/
def extracted_data_init (target_atoms : List (Int × String)) :
    List (Int × String × List DensityVal) :=
  target_atoms.map (fun p => (p.1, p.2, []))

/-- Line 47: `extracted_data[atom_number]['Densities'] = densities`. -/
def updateData (data : List (Int × String × List DensityVal)) (atom_number : Int)
    (densities : List DensityVal) : List (Int × String × List DensityVal) :=
  data.map (fun t => if t.1 = atom_number then (t.1, t.2.1, densities) else t)

/-- Effect of one candidate line on `extracted_data` (lines 38-49). -/
def processLine (target_atoms : List (Int × String))
    (data : List (Int × String × List DensityVal)) (line : String) :
    List (Int × String × List DensityVal) :=
  match rowMatch target_atoms line with
  | some ad => updateData data ad.1 ad.2
  | none => data

/-- The `for line in file` loop of lines 28-49: the start marker sets
`within_target_section` and consumes the line (`continue`); inside the section a
line containing `"====="` breaks out of the loop entirely; other lines inside
the section are processed as candidate rows; lines outside are skipped. -/
def scanLines (target_atoms : List (Int × String))
    (data : List (Int × String × List DensityVal)) (within_target_section : Bool) :
    List String → List (Int × String × List DensityVal)
  | [] => data
  | line :: rest =>
    if strContains line start_marker then
      scanLines target_atoms data true rest
    else if within_target_section && strContains line end_marker then
      data
    else if within_target_section then
      scanLines target_atoms (processLine target_atoms data line) within_target_section rest
    else
      scanLines target_atoms data within_target_section rest

/-- One output row of the report table (lines 56-65): atom number, the element
from the TargetSpec, and six optional density slots; `none` renders the Python
`None` null marker. -/
structure AtomRecord where
  atomNumber : Int
  element : String
  sum : Option DensityVal
  n_s : Option DensityVal
  n_p : Option DensityVal
  n_d : Option DensityVal
  n_f : Option DensityVal
  n_g : Option DensityVal
deriving DecidableEq, Repr

/-- Lines 59-64 applied to one entry: slot `i` is `densities[i]` when that many
densities were stored, else `None`. -/
def mkRecord (atom_number : Int) (element : String) (densities : List DensityVal) :
    AtomRecord :=
  ⟨atom_number, element, densities[0]?, densities[1]?, densities[2]?,
    densities[3]?, densities[4]?, densities[5]?⟩

/-- The assembled `extracted_df` (lines 56-65) for a given line stream: scan the
lines from outside the section, then turn every `extracted_data` entry into an
`AtomRecord`, in insertion order. -/
def extracted_df (target_atoms : List (Int × String)) (lines : List String) :
    List AtomRecord :=
  (scanLines target_atoms (extracted_data_init target_atoms) false lines).map
    (fun t => mkRecord t.1 t.2.1 t.2.2)

/-- Outcome of a call to `extract_density_from_dscf_log`: either the
`FileNotFoundError` path (error printed, early `return`, no output written) or
the table written to the output file. -/
inductive ExtractOutcome where
  | fileNotFound
  | written (table : List AtomRecord)
deriving DecidableEq, Repr

/-- The whole function (lines 19-69): `file_lines = none` models `open` raising
`FileNotFoundError` (caught at line 51: print and return before any scanning and
before the output file is opened); otherwise the file's lines are scanned and
the resulting table is written. -/
def extract_density_from_dscf_log (target_atoms : List (Int × String))
    (file_lines : Option (List String)) : ExtractOutcome :=
  match file_lines with
  | none => ExtractOutcome.fileNotFound
  | some lines => ExtractOutcome.written (extracted_df target_atoms lines)

/-- The candidate data lines a scan starting in state `within` actually hands to
the row logic: lines after the start marker and strictly before the first
in-section `"====="` line. -/
def candidateLines (within : Bool) : List String → List String
  | [] => []
  | line :: rest =>
    if strContains line start_marker then candidateLines true rest
    else if within && strContains line end_marker then []
    else if within then line :: candidateLines within rest
    else candidateLines within rest

/-- Densities of the last line among `rows` that is accepted for atom `k`. -/
def lastMatchFor (target_atoms : List (Int × String)) (rows : List String) (k : Int) :
    Option (List DensityVal) :=
  (rows.filterMap (fun l =>
    (rowMatch target_atoms l).bind (fun ad => if ad.1 = k then some ad.2 else none))).getLast?

/-- The six density slots of a record in column order, then `none` forever. -/
def slotD (r : AtomRecord) (i : Nat) : Option DensityVal :=
  [r.sum, r.n_s, r.n_p, r.n_d, r.n_f, r.n_g].getD i none

/-- Whether `line` is accepted (lines 38-46) and claims atom index `k`. -/
def matchesAtomRow (target_atoms : List (Int × String)) (k : Int) (line : String) : Bool :=
  match rowMatch target_atoms line with
  | some ad => decide (ad.1 = k)
  | none => false

theorem or_some_getD {α : Type} (o : Option α) (d e : α) : (o.or (some d)).getD e = o.getD d := by
  cases o <;> rfl

theorem getLast?_cons_or {α : Type} (a : α) (l : List α) :
    (a :: l).getLast? = l.getLast?.or (some a) := by
  have h : a :: l = [a] ++ l := rfl
  rw [h, List.getLast?_append]
  rfl

/-- The scan loop equals a fold of the per-line action over the candidate lines. -/
theorem scanLines_eq_foldl (target_atoms : List (Int × String)) (lines : List String) :
    ∀ (data : List (Int × String × List DensityVal)) (w : Bool),
      scanLines target_atoms data w lines
        = (candidateLines w lines).foldl (processLine target_atoms) data := by
  induction lines with
  | nil => intro data w; rfl
  | cons line rest ih =>
    intro data w
    by_cases h1 : strContains line start_marker = true
    · simp [scanLines, candidateLines, h1, ih]
    · by_cases h2 : (w && strContains line end_marker) = true
      · simp [scanLines, candidateLines, h1, h2]
      · by_cases h3 : w = true
        · subst h3
          have h4 : strContains line end_marker = false := by simpa using h2
          simp [scanLines, candidateLines, h1, h4, ih]
        · have h4 : w = false := by simpa using h3
          subst h4
          simp [scanLines, candidateLines, h1, ih]

theorem updateData_map (target_atoms : List (Int × String)) (g : Int → List DensityVal)
    (a : Int) (d : List DensityVal) :
    updateData (target_atoms.map fun p => (p.1, p.2, g p.1)) a d
      = target_atoms.map fun p => (p.1, p.2, if p.1 = a then d else g p.1) := by
  simp only [updateData, List.map_map]
  refine List.map_congr_left ?_
  intro p _
  by_cases h : p.1 = a <;> simp [h]

/-- Folding the per-line action over rows updates each target's densities to the
last accepted match, with the previous value as fallback. -/
theorem foldl_processLine (target_atoms : List (Int × String)) (rows : List String) :
    ∀ g : Int → List DensityVal,
      rows.foldl (processLine target_atoms) (target_atoms.map fun p => (p.1, p.2, g p.1))
        = target_atoms.map fun p =>
            (p.1, p.2, (lastMatchFor target_atoms rows p.1).getD (g p.1)) := by
  induction rows with
  | nil => intro g; simp [lastMatchFor]
  | cons l rows ih =>
    intro g
    rcases hm : rowMatch target_atoms l with _ | ⟨a, d⟩
    · rw [List.foldl_cons]
      have hp : processLine target_atoms (target_atoms.map fun p => (p.1, p.2, g p.1)) l
          = target_atoms.map fun p => (p.1, p.2, g p.1) := by
        simp [processLine, hm]
      rw [hp, ih g]
      refine List.map_congr_left ?_
      intro p _
      simp [lastMatchFor, List.filterMap_cons, hm]
    · rw [List.foldl_cons]
      have hp : processLine target_atoms (target_atoms.map fun p => (p.1, p.2, g p.1)) l
          = target_atoms.map fun p => (p.1, p.2, if p.1 = a then d else g p.1) := by
        simp only [processLine, hm]
        exact updateData_map target_atoms g a d
      rw [hp]
      have h2 := ih (fun k => if k = a then d else g k)
      simp only [] at h2
      rw [h2]
      refine List.map_congr_left ?_
      intro p _
      obtain ⟨pk, pe⟩ := p
      by_cases hk : pk = a
      · subst hk
        simp [lastMatchFor, List.filterMap_cons, hm, getLast?_cons_or, or_some_getD]
      · have ha : ¬ a = pk := fun h => hk h.symm
        simp [lastMatchFor, List.filterMap_cons, hm, ha, hk]

/-- Workhorse: the assembled table carries, per target in insertion order, the
densities of the last accepted in-section line for that atom (empty if none). -/
theorem extracted_df_eq (target_atoms : List (Int × String)) (lines : List String) :
    extracted_df target_atoms lines
      = target_atoms.map fun p =>
          mkRecord p.1 p.2
            ((lastMatchFor target_atoms (candidateLines false lines) p.1).getD []) := by
  have hinit : extracted_data_init target_atoms
      = target_atoms.map fun p => (p.1, p.2, (fun _ : Int => ([] : List DensityVal)) p.1) := by
    simp [extracted_data_init]
  rw [extracted_df, hinit, scanLines_eq_foldl,
    foldl_processLine target_atoms (candidateLines false lines) (fun _ => [])]
  simp [List.map_map]

/-- Acceptance characterization of the row logic: a line is accepted with index
`a` and densities `d` exactly when it splits into at least three tokens, the
first parses as the integer `a`, every token from the third on parses as a
float (giving `d`), and the TargetSpec value stored at `a` equals the second
token lowercased (the stored side is compared as given). -/
theorem rowMatch_eq_some_iff (target_atoms : List (Int × String)) (line : String)
    (a : Int) (d : List DensityVal) :
    rowMatch target_atoms line = some (a, d) ↔
      ∃ p0 p1 ts, splitWs line = p0 :: p1 :: ts ∧ ts ≠ [] ∧
        parseInt p0 = some a ∧ parseFloats ts = some d ∧
        lookupTarget target_atoms a = some (lowerStr p1) := by
  rcases hs : splitWs line with _ | ⟨p0, tl⟩
  · simp [rowMatch, hs]
  rcases tl with _ | ⟨p1, tl2⟩
  · simp [rowMatch, hs]
  rcases tl2 with _ | ⟨p2, rest⟩
  · simp [rowMatch, hs]
    intro x x1 x2 _ _ hx2 hnx2
    exact absurd hx2 hnx2
  simp only [rowMatch, hs]
  rcases hpi : parseInt p0 with _ | ai
  · simp [hpi]
  rcases hpf : parseFloats (p2 :: rest) with _ | ds
  · simp [hpf]
  show (if lookupTarget target_atoms ai = some (lowerStr p1) then some (ai, ds) else none)
      = some (a, d) ↔ _
  by_cases hlk : lookupTarget target_atoms ai = some (lowerStr p1)
  · rw [if_pos hlk]
    constructor
    · intro h
      obtain ⟨rfl, rfl⟩ : ai = a ∧ ds = d := by simpa [Prod.ext_iff] using h
      exact ⟨p0, p1, p2 :: rest, rfl, by simp, hpi, hpf, hlk⟩
    · rintro ⟨q0, q1, ts, heq, hne, hqi, hqf, hql⟩
      obtain ⟨rfl, rfl, rfl⟩ : p0 = q0 ∧ p1 = q1 ∧ p2 :: rest = ts := by
        simpa using heq
      rw [hpi] at hqi
      rw [hpf] at hqf
      obtain rfl : ai = a := by simpa using hqi
      obtain rfl : ds = d := by simpa using hqf
      rfl
  · rw [if_neg hlk]
    constructor
    · intro h
      exact Option.noConfusion h
    · rintro ⟨q0, q1, ts, heq, hne, hqi, hqf, hql⟩
      obtain ⟨rfl, rfl, rfl⟩ : p0 = q0 ∧ p1 = q1 ∧ p2 :: rest = ts := by simpa using heq
      rw [hpi] at hqi
      obtain rfl : ai = a := by simpa using hqi
      exact absurd hql hlk

/-- An accepted row always carries at least one density value. -/
theorem rowMatch_densities_ne_nil (target_atoms : List (Int × String)) (line : String)
    (a : Int) (d : List DensityVal) (h : rowMatch target_atoms line = some (a, d)) :
    d ≠ [] := by
  obtain ⟨p0, p1, ts, hs, hne, hpi, hpf, hlk⟩ := (rowMatch_eq_some_iff _ _ _ _).mp h
  rcases ts with _ | ⟨t, ts⟩
  · exact absurd rfl hne
  · intro hd
    subst hd
    unfold parseFloats at hpf
    rcases hft : parseFloat t with _ | v <;> rcases hr : parseFloats ts with _ | vs <;>
      simp [hft, hr] at hpf


theorem find?_key_eq_lookupTarget (target_atoms : List (Int × String)) (k : Int) :
    target_atoms.find? (fun p => decide (p.1 = k))
      = (lookupTarget target_atoms k).map (fun e => (k, e)) := by
  induction target_atoms with
  | nil => rfl
  | cons p rest ih =>
    obtain ⟨pk, pe⟩ := p
    by_cases h : pk = k
    · subst h
      simp [List.find?_cons, lookupTarget]
    · simp [List.find?_cons, lookupTarget, h, ih]

/-- Record retrieval: looking up atom `k` in the assembled table yields the
record built from the TargetSpec element at `k` and the last accepted match. -/
theorem find?_extracted_df (target_atoms : List (Int × String)) (lines : List String)
    (k : Int) (e : String) (hk : lookupTarget target_atoms k = some e) :
    (extracted_df target_atoms lines).find? (fun r => decide (r.atomNumber = k))
      = some (mkRecord k e
          ((lastMatchFor target_atoms (candidateLines false lines) k).getD [])) := by
  rw [extracted_df_eq, List.find?_map]
  have hcomp : ((fun r : AtomRecord => decide (r.atomNumber = k)) ∘
      (fun p : Int × String => mkRecord p.1 p.2
        ((lastMatchFor target_atoms (candidateLines false lines) p.1).getD [])))
      = fun p : Int × String => decide (p.1 = k) := by
    funext p
    simp [mkRecord]
  rw [hcomp, find?_key_eq_lookupTarget, hk]
  rfl

/-- A stream with no start-marker line contributes no candidate rows. -/
theorem candidateLines_eq_nil (lines : List String)
    (h : ∀ l ∈ lines, strContains l start_marker = false) :
    candidateLines false lines = [] := by
  induction lines with
  | nil => rfl
  | cons line rest ih =>
    have h1 := h line (by simp)
    simp only [candidateLines, h1]
    exact ih (fun l hl => h l (by simp [hl]))

/-- Inside the section, marker-free lines are all candidate rows. -/
theorem candidateLines_true_all (rows : List String)
    (h : ∀ l ∈ rows, strContains l start_marker = false ∧ strContains l end_marker = false) :
    candidateLines true rows = rows := by
  induction rows with
  | nil => rfl
  | cons line rest ih =>
    have h1 := h line (by simp)
    simp only [candidateLines, h1.1, h1.2]
    simp [ih (fun l hl => h l (by simp [hl]))]

theorem parseFloats_eq_none_of_mem (ts : List String) (t : String)
    (hmem : t ∈ ts) (hbad : parseFloat t = none) : parseFloats ts = none := by
  induction ts with
  | nil => cases hmem
  | cons u us ih =>
    rcases List.mem_cons.mp hmem with rfl | hmem2
    · simp [parseFloats, hbad]
    · simp [parseFloats, ih hmem2]

theorem getElemQ_isSome {α : Type} (l : List α) (i : Nat) :
    (l[i]?).isSome = true ↔ i < l.length := by
  constructor
  · intro h
    rcases Option.isSome_iff_exists.mp h with ⟨x, hx⟩
    exact (List.getElem?_eq_some_iff.mp hx).1
  · intro h
    rw [List.getElem?_eq_getElem h]
    rfl

theorem slotD_mkRecord (k : Int) (e : String) (d : List DensityVal) (i : Nat) (hi : i < 6) :
    slotD (mkRecord k e d) i = d[i]? := by
  interval_cases i <;> rfl

theorem slotD_ge_six (r : AtomRecord) (i : Nat) (hi : 6 ≤ i) : slotD r i = none := by
  unfold slotD
  rw [List.getD_eq_getElem?_getD, List.getElem?_eq_none (by simpa using hi)]
  rfl

/-- The value `lastMatchFor` retains is the densities of some accepted line. -/
theorem lastMatchFor_mem (target_atoms : List (Int × String)) (rows : List String)
    (k : Int) (d : List DensityVal) (h : lastMatchFor target_atoms rows k = some d) :
    ∃ l ∈ rows, rowMatch target_atoms l = some (k, d) := by
  unfold lastMatchFor at h
  have hmem := List.mem_of_mem_getLast? h
  rcases List.mem_filterMap.mp hmem with ⟨l, hl, hfl⟩
  refine ⟨l, hl, ?_⟩
  rcases hr : rowMatch target_atoms l with _ | ⟨a, dd⟩
  · rw [hr] at hfl
    cases hfl
  · rw [hr] at hfl
    by_cases ha : a = k
    · subst ha
      simp at hfl
      subst hfl
      rfl
    · simp [ha] at hfl

/-- Retention test: `lastMatchFor` is `some` exactly when some row is accepted for atom `k`. -/
theorem lastMatchFor_isSome_iff (target_atoms : List (Int × String)) (rows : List String)
    (k : Int) :
    (lastMatchFor target_atoms rows k).isSome = true
      ↔ ∃ l ∈ rows, matchesAtomRow target_atoms k l = true := by
  unfold lastMatchFor
  rw [Option.isSome_iff_ne_none, Ne, List.getLast?_eq_none_iff, ← Ne, Ne,
    List.filterMap_eq_nil_iff]
  constructor
  · intro h
    push_neg at h
    obtain ⟨l, hl, hfl⟩ := h
    refine ⟨l, hl, ?_⟩
    unfold matchesAtomRow
    rcases hr : rowMatch target_atoms l with _ | ⟨a, dd⟩
    · rw [hr] at hfl
      simp at hfl
    · rw [hr] at hfl
      by_cases ha : a = k
      · simp [ha]
      · simp [ha] at hfl
  · rintro ⟨l, hl, hml⟩ hall
    have hfl := hall l hl
    unfold matchesAtomRow at hml
    rcases hr : rowMatch target_atoms l with _ | ⟨a, dd⟩
    · rw [hr] at hml
      cases hml
    · rw [hr] at hml
      have ha : a = k := by simpa using hml
      rw [hr] at hfl
      simp [ha] at hfl

theorem mkRecord_sum_isSome_iff (k : Int) (e : String) (d : List DensityVal) :
    ((mkRecord k e d).sum).isSome = true ↔ d ≠ [] := by
  rcases d with _ | ⟨v, vs⟩ <;> simp [mkRecord]

theorem mkRecord_sum_none_all_none (k : Int) (e : String) (d : List DensityVal)
    (h : (mkRecord k e d).sum = none) :
    (mkRecord k e d).n_s = none ∧ (mkRecord k e d).n_p = none ∧
    (mkRecord k e d).n_d = none ∧ (mkRecord k e d).n_f = none ∧
    (mkRecord k e d).n_g = none := by
  rcases d with _ | ⟨v, vs⟩
  · simp [mkRecord]
  · simp [mkRecord] at h

/-- C1 counterexample: with TargetSpec `{66: "S"}` the data row `"66 S 2"` has
an element symbol equal to the expected element (so trivially equal after
lowercasing both sides, as the claim demands), its atom index is a key, yet the
row is rejected and atom 66 ends with a fully null record: the code compares
the stored expected element as given against the lowercased row element. -/
theorem c1_counterexample_expected_element_not_lowered :
    lookupTarget [((66 : Int), "S")] 66 = some "S" ∧
    lowerStr "S" = lowerStr "S" ∧
    rowMatch [((66 : Int), "S")] "66 S 2" = none ∧
    extracted_df [((66 : Int), "S")] [start_marker, "66 S 2", end_marker]
      = [⟨66, "S", none, none, none, none, none, none⟩] :=
  ⟨rfl, rfl, by decide, by decide⟩

/-- C1 (amended): a parsed data row is accepted into the result set iff it has
at least three tokens, the first parses as an integer index, every token from
the third on parses as a float, and the TargetSpec's expected element for that
index — compared exactly as stored, NOT lowercased — equals the row's element
symbol lowercased.  Case-insensitive acceptance therefore holds only when the
stored expected element is already lowercase. -/
theorem c1_accepted_iff_stored_expected_eq_lowered_row
    (target_atoms : List (Int × String)) (line : String) (a : Int) (d : List DensityVal) :
    rowMatch target_atoms line = some (a, d) ↔
      ∃ p0 p1 ts, splitWs line = p0 :: p1 :: ts ∧ ts ≠ [] ∧
        parseInt p0 = some a ∧ parseFloats ts = some d ∧
        lookupTarget target_atoms a = some (lowerStr p1) :=
  rowMatch_eq_some_iff target_atoms line a d

/-- C2: for every TargetSpec and every line stream the table has exactly one
record per TargetSpec entry, in TargetSpec insertion order (same atom numbers
and elements, in order), so its length equals the TargetSpec size regardless of
how many rows matched. -/
theorem c2_one_record_per_target_in_order (target_atoms : List (Int × String))
    (lines : List String) :
    (extracted_df target_atoms lines).length = target_atoms.length ∧
    (extracted_df target_atoms lines).map (fun r => r.atomNumber)
      = target_atoms.map (fun p => p.1) ∧
    (extracted_df target_atoms lines).map (fun r => r.element)
      = target_atoms.map (fun p => p.2) := by
  refine ⟨?_, ?_, ?_⟩ <;>
    · rw [extracted_df_eq]
      simp [mkRecord, List.map_map, Function.comp]

/-- C3: for a target atom `k`, density slot `i` (0 ≤ i < 6) equals entry `i` of
the retained densities, is populated iff the retained matching line supplied at
least `i+1` numeric tokens, unpopulated slots are the null marker, and slots
from the seventh on are never surfaced. -/
theorem c3_density_slots_iff_retained_supplied (target_atoms : List (Int × String))
    (lines : List String) (k : Int) (e : String)
    (hk : lookupTarget target_atoms k = some e) :
    ∃ r, (extracted_df target_atoms lines).find? (fun r => decide (r.atomNumber = k))
        = some r ∧
      (∀ i, i < 6 →
        slotD r i = ((lastMatchFor target_atoms (candidateLines false lines) k).getD [])[i]?) ∧
      (∀ i, i < 6 → ((slotD r i).isSome = true ↔
        ∃ d, lastMatchFor target_atoms (candidateLines false lines) k = some d ∧
          i + 1 ≤ d.length)) ∧
      (∀ i, 6 ≤ i → slotD r i = none) := by
  refine ⟨_, find?_extracted_df target_atoms lines k e hk, ?_, ?_, ?_⟩
  · intro i hi
    exact slotD_mkRecord _ _ _ i hi
  · intro i hi
    rw [slotD_mkRecord _ _ _ i hi, getElemQ_isSome]
    rcases hlm : lastMatchFor target_atoms (candidateLines false lines) k with _ | d
    · simp
    · simp [Nat.lt_iff_add_one_le]
  · intro i hi
    exact slotD_ge_six _ i hi

theorem c3_density_slots_iff_retained_supplied_witness :
    lookupTarget [((66 : Int), "s")] 66 = some "s" ∧
    (∃ r, (extracted_df [((66 : Int), "s")]
          [start_marker, "66 s 1 2 3 4 5 6 7", end_marker]).find?
          (fun r => decide (r.atomNumber = 66)) = some r ∧
      (∀ i, i < 6 →
        slotD r i = ((lastMatchFor [((66 : Int), "s")]
          (candidateLines false [start_marker, "66 s 1 2 3 4 5 6 7", end_marker]) 66).getD
            [])[i]?) ∧
      (∀ i, i < 6 → ((slotD r i).isSome = true ↔
        ∃ d, lastMatchFor [((66 : Int), "s")]
            (candidateLines false [start_marker, "66 s 1 2 3 4 5 6 7", end_marker]) 66
          = some d ∧ i + 1 ≤ d.length)) ∧
      (∀ i, 6 ≤ i → slotD r i = none)) :=
  ⟨by decide, c3_density_slots_iff_retained_supplied [((66 : Int), "s")]
    [start_marker, "66 s 1 2 3 4 5 6 7", end_marker] 66 "s" (by decide)⟩

/-- C4: while inside the section, a line containing `"====="` (and not the start
marker) ends the scan terminally: the state is returned unchanged, and no
following line — whatever it contains — is processed or can affect any record. -/
theorem c4_end_marker_stops_scan_terminally (target_atoms : List (Int × String))
    (data : List (Int × String × List DensityVal)) (line : String) (post : List String)
    (h1 : strContains line start_marker = false)
    (h2 : strContains line end_marker = true) :
    scanLines target_atoms data true (line :: post) = data := by
  simp [scanLines, h1, h2]

theorem c4_end_marker_stops_scan_terminally_witness :
    strContains "  =====  " start_marker = false ∧
    strContains "  =====  " end_marker = true ∧
    scanLines [((66 : Int), "s")] (extracted_data_init [((66 : Int), "s")]) true
        ["  =====  ", "66 s 9"]
      = extracted_data_init [((66 : Int), "s")] :=
  ⟨by decide, by decide,
    c4_end_marker_stops_scan_terminally _ _ _ _ (by decide) (by decide)⟩

/-- C5: inside the section, a candidate line with fewer than 3 tokens, or whose
first token fails integer parsing, or with a token from the third onward that
fails float parsing, is discarded silently: no record changes and the scan
continues with the next line (the total scan function raises nothing). -/
theorem c5_malformed_line_skipped_silently (target_atoms : List (Int × String))
    (data : List (Int × String × List DensityVal)) (line : String) (rest : List String)
    (h1 : strContains line start_marker = false)
    (h2 : strContains line end_marker = false)
    (hbad : (splitWs line).length < 3 ∨ parseInt ((splitWs line).headD "") = none ∨
      ∃ t ∈ (splitWs line).drop 2, parseFloat t = none) :
    processLine target_atoms data line = data ∧
    scanLines target_atoms data true (line :: rest)
      = scanLines target_atoms data true rest := by
  have hrm : rowMatch target_atoms line = none := by
    rcases h : rowMatch target_atoms line with _ | ⟨a, d⟩
    · rfl
    · exfalso
      obtain ⟨p0, p1, ts, hs, hne, hpi2, hpf2, _⟩ := (rowMatch_eq_some_iff _ _ _ _).mp h
      rcases hbad with hlt | hpi | ⟨t, ht, hft⟩
      · rw [hs] at hlt
        have hpos : 0 < ts.length := List.length_pos.mpr hne
        simp at hlt
        omega
      · rw [hs] at hpi
        simp at hpi
        rw [hpi2] at hpi
        cases hpi
      · rw [hs] at ht
        simp at ht
        have hnone := parseFloats_eq_none_of_mem ts t ht hft
        rw [hnone] at hpf2
        cases hpf2
  refine ⟨by simp [processLine, hrm], ?_⟩
  simp [scanLines, h1, h2, processLine, hrm]

theorem c5_malformed_line_skipped_silently_witness :
    strContains "66 s abc" start_marker = false ∧
    strContains "66 s abc" end_marker = false ∧
    ((splitWs "66 s abc").length < 3 ∨ parseInt ((splitWs "66 s abc").headD "") = none ∨
      ∃ t ∈ (splitWs "66 s abc").drop 2, parseFloat t = none) ∧
    (processLine [((66 : Int), "s")] (extracted_data_init [((66 : Int), "s")]) "66 s abc"
        = extracted_data_init [((66 : Int), "s")] ∧
      scanLines [((66 : Int), "s")] (extracted_data_init [((66 : Int), "s")]) true
          ["66 s abc", "66 s 7"]
        = scanLines [((66 : Int), "s")] (extracted_data_init [((66 : Int), "s")]) true
            ["66 s 7"]) :=
  ⟨by decide, by decide, by decide,
    c5_malformed_line_skipped_silently [((66 : Int), "s")]
      (extracted_data_init [((66 : Int), "s")]) "66 s abc" ["66 s 7"]
      (by decide) (by decide) (by decide)⟩

/-- C6: when several in-section lines are accepted for the same target atom, the
record retained for that atom carries exactly the densities of the last such
line in stream order — the earlier values are overwritten, nothing accumulates
and nothing errors. -/
theorem c6_last_matching_line_wins (target_atoms : List (Int × String))
    (pre mid post : List String) (l1 l2 : String) (k : Int) (e : String)
    (d1 d2 : List DensityVal)
    (hmk : ∀ l ∈ pre ++ l1 :: mid ++ l2 :: post,
      strContains l start_marker = false ∧ strContains l end_marker = false)
    (h1 : rowMatch target_atoms l1 = some (k, d1))
    (h2 : rowMatch target_atoms l2 = some (k, d2))
    (h3 : ∀ l ∈ post, matchesAtomRow target_atoms k l = false)
    (hk : lookupTarget target_atoms k = some e) :
    (extracted_df target_atoms
        (start_marker :: (pre ++ l1 :: mid ++ l2 :: post))).find?
        (fun r => decide (r.atomNumber = k))
      = some (mkRecord k e d2) := by
  rw [find?_extracted_df target_atoms _ k e hk]
  have hstart : strContains start_marker start_marker = true := by decide
  have hc : candidateLines false (start_marker :: (pre ++ l1 :: mid ++ l2 :: post))
      = pre ++ l1 :: mid ++ l2 :: post := by
    simp only [candidateLines, hstart, if_pos]
    exact candidateLines_true_all _ hmk
  rw [hc]
  have hfpost : ∀ l ∈ post,
      ((rowMatch target_atoms l).bind
        (fun ad => if ad.1 = k then some ad.2 else none)) = none := by
    intro l hl
    have hm := h3 l hl
    unfold matchesAtomRow at hm
    rcases hr : rowMatch target_atoms l with _ | ⟨a, dd⟩
    · rfl
    · rw [hr] at hm
      have ha : ¬ a = k := by simpa using hm
      simp [ha]
  have hlast : lastMatchFor target_atoms (pre ++ l1 :: mid ++ l2 :: post) k = some d2 := by
    unfold lastMatchFor
    rw [List.filterMap_append, List.filterMap_cons, h2]
    have hnil : List.filterMap
        (fun l => (rowMatch target_atoms l).bind fun ad => if ad.1 = k then some ad.2 else none)
        post = [] := List.filterMap_eq_nil_iff.mpr hfpost
    simp [hnil, List.getLast?_concat]
  rw [hlast]
  rfl

theorem c6_last_matching_line_wins_witness :
    (∀ l ∈ (["head"] ++ "66 s 1" :: ([] : List String) ++ "66 s 2 3" :: ["tail"]),
      strContains l start_marker = false ∧ strContains l end_marker = false) ∧
    rowMatch [((66 : Int), "s")] "66 s 1" = some (66, [⟨1, 0⟩]) ∧
    rowMatch [((66 : Int), "s")] "66 s 2 3" = some (66, [⟨2, 0⟩, ⟨3, 0⟩]) ∧
    (∀ l ∈ ["tail"], matchesAtomRow [((66 : Int), "s")] 66 l = false) ∧
    lookupTarget [((66 : Int), "s")] 66 = some "s" ∧
    (extracted_df [((66 : Int), "s")]
        (start_marker ::
          (["head"] ++ "66 s 1" :: ([] : List String) ++ "66 s 2 3" :: ["tail"]))).find?
        (fun r => decide (r.atomNumber = 66))
      = some (mkRecord 66 "s" [⟨2, 0⟩, ⟨3, 0⟩]) :=
  ⟨by decide, by decide, by decide, by decide, by decide,
    c6_last_matching_line_wins [((66 : Int), "s")] ["head"] [] ["tail"] "66 s 1" "66 s 2 3"
      66 "s" [⟨1, 0⟩] [⟨2, 0⟩, ⟨3, 0⟩] (by decide) (by decide) (by decide) (by decide)
      (by decide)⟩

/-- C7: when the input file cannot be opened, the call reports the failure and
returns: the outcome is `fileNotFound`, never `written`, so no line is scanned
and no (even partial) output table is produced. -/
theorem c7_missing_file_no_partial_output (target_atoms : List (Int × String)) :
    extract_density_from_dscf_log target_atoms none = ExtractOutcome.fileNotFound ∧
    ∀ table, extract_density_from_dscf_log target_atoms none ≠ ExtractOutcome.written table :=
  ⟨rfl, fun _ h => ExtractOutcome.noConfusion h⟩

/-- C8: if no line of the stream contains the start marker, the output is one
all-null record per target atom in TargetSpec order — not an error. -/
theorem c8_no_start_marker_all_null (target_atoms : List (Int × String))
    (lines : List String)
    (h : ∀ l ∈ lines, strContains l start_marker = false) :
    extracted_df target_atoms lines
      = target_atoms.map (fun p =>
          ⟨p.1, p.2, none, none, none, none, none, none⟩) := by
  rw [extracted_df_eq, candidateLines_eq_nil lines h]
  rfl

theorem c8_no_start_marker_all_null_witness :
    (∀ l ∈ ["66 s 1 2 3", "====="], strContains l start_marker = false) ∧
    extracted_df [((66 : Int), "s"), ((67 : Int), "o")] ["66 s 1 2 3", "====="]
      = [((66 : Int), "s"), ((67 : Int), "o")].map (fun p =>
          ⟨p.1, p.2, none, none, none, none, none, none⟩) :=
  ⟨by decide,
    c8_no_start_marker_all_null [((66 : Int), "s"), ((67 : Int), "o")]
      ["66 s 1 2 3", "====="] (by decide)⟩

/-- C9: a `"====="` line seen before any start marker (and itself not containing
the start marker) neither terminates the scan nor has any other effect: the
result on the whole stream equals the result on the remaining lines, which can
still enter the section at a later start marker and parse rows normally. -/
theorem c9_pre_section_end_marker_harmless (target_atoms : List (Int × String))
    (line : String) (rest : List String)
    (h1 : strContains line start_marker = false)
    (h2 : strContains line end_marker = true) :
    extracted_df target_atoms (line :: rest) = extracted_df target_atoms rest := by
  unfold extracted_df
  simp [scanLines, h1]

theorem c9_pre_section_end_marker_harmless_witness :
    strContains "=====" start_marker = false ∧
    strContains "=====" end_marker = true ∧
    extracted_df [((66 : Int), "s")] ["=====", start_marker, "66 s 5"]
      = extracted_df [((66 : Int), "s")] [start_marker, "66 s 5"] ∧
    extracted_df [((66 : Int), "s")] [start_marker, "66 s 5"]
      = [mkRecord 66 "s" [⟨5, 0⟩]] :=
  ⟨by decide, by decide,
    c9_pre_section_end_marker_harmless [((66 : Int), "s")] "=====" [start_marker, "66 s 5"]
      (by decide) (by decide),
    by decide⟩

/-- C10: for a target atom, the first density slot (sum) is populated iff some
in-section line was accepted for that atom (a retained match always carries at
least one density), and a record with a null sum is fully null. -/
theorem c10_sum_populated_iff_some_match (target_atoms : List (Int × String))
    (lines : List String) (k : Int) (e : String)
    (hk : lookupTarget target_atoms k = some e) :
    ∃ r, (extracted_df target_atoms lines).find? (fun r => decide (r.atomNumber = k))
        = some r ∧
      ((r.sum).isSome = true ↔
        ∃ l ∈ candidateLines false lines, matchesAtomRow target_atoms k l = true) ∧
      (r.sum = none → r.n_s = none ∧ r.n_p = none ∧ r.n_d = none ∧ r.n_f = none ∧
        r.n_g = none) := by
  refine ⟨_, find?_extracted_df target_atoms lines k e hk, ?_,
    mkRecord_sum_none_all_none _ _ _⟩
  rw [mkRecord_sum_isSome_iff, ← lastMatchFor_isSome_iff]
  rcases hlm : lastMatchFor target_atoms (candidateLines false lines) k with _ | d
  · simp
  · obtain ⟨l, _, hrm⟩ := lastMatchFor_mem _ _ _ _ hlm
    have hne := rowMatch_densities_ne_nil _ _ _ _ hrm
    simp [hne]

theorem c10_sum_populated_iff_some_match_witness :
    lookupTarget [((66 : Int), "s"), ((67 : Int), "o")] 67 = some "o" ∧
    (∃ r, (extracted_df [((66 : Int), "s"), ((67 : Int), "o")]
          [start_marker, "66 s 4", end_marker]).find?
          (fun r => decide (r.atomNumber = 67)) = some r ∧
      ((r.sum).isSome = true ↔
        ∃ l ∈ candidateLines false [start_marker, "66 s 4", end_marker],
          matchesAtomRow [((66 : Int), "s"), ((67 : Int), "o")] 67 l = true) ∧
      (r.sum = none → r.n_s = none ∧ r.n_p = none ∧ r.n_d = none ∧ r.n_f = none ∧
        r.n_g = none)) :=
  ⟨by decide,
    c10_sum_populated_iff_some_match [((66 : Int), "s"), ((67 : Int), "o")]
      [start_marker, "66 s 4", end_marker] 67 "o" (by decide)⟩
